import Mathlib

/-!
Verification of the acquisition-and-caching pipeline of `pyteleloisirs`
(`src/pyteleloisirs/pyteleloisirs.py`).

Shallow embedding conventions:
* timestamps are `Int` seconds since an arbitrary epoch; a Python
  `datetime` subtraction yields a `timedelta`, whose `.seconds` field is the
  normalized seconds component, i.e. `(difference) % 86400` (Python's floored
  modulus, which agrees with Lean's `Int.emod` for a positive modulus);
* `timedelta(hours=h)` is `h * 3600` seconds;
* Python `None` is `Option.none`; a function that can raise returns `Except Unit`;
* network fetches are passed in as explicit oracles (`fetch` arguments);
* parsed HTML nodes are passed in as explicit structures holding exactly the
  fields the source reads from them.
-/

namespace Pyteleloisirs

/-- One entry of the module-level `_CACHE` dict: a value together with the
`'last_updated'` timestamp stored next to it (lines 79 and 242 of the source). -/
structure CacheEntry (V : Type) where
  last_updated : Int
  data : V
deriving Repr, DecidableEq

/-- The time-gated cache: a keyed store of `CacheEntry`, modelling a Python
dict (unique keys) as a function from keys to optional entries. -/
def Cache (V : Type) : Type := String → Option (CacheEntry V)

/-- The cache-read pattern of lines 55-63 (key `'channels'`) and lines 188-196
(key `chan` inside `_CACHE['guide']`): if the key is present and
`now - last_updated < max_age`, return the stored data and leave the cache
alone; if the key is present but stale, `pop` it and report a miss; if the key
is absent, report a miss. Returns (result, cache after the read). -/
def cache_get {V : Type} (cache : Cache V) (key : String) (now max_cache_age : Int) :
    Option V × Cache V :=
  match cache key with
  | none => (none, cache)
  | some entry =>
    if now - entry.last_updated < max_cache_age then
      (some entry.data, cache)
    else
      (none, fun k => if k = key then none else cache k)

/-- The cache-write pattern of lines 79 and 240-242: store the value under the
key with `last_updated = now`, replacing any previous entry. -/
def cache_put {V : Type} (cache : Cache V) (key : String) (now : Int) (v : V) : Cache V :=
  fun k => if k = key then some ⟨now, v⟩ else cache k

/-- A program record as built by `async_get_program_guide` (lines 227-230):
`{'name': ..., 'type': ..., 'img': ..., 'url': ..., 'summary': ...,
'start_time': ..., 'end_time': ...}`. The title anchor's `href` may be `None`
(line 209-212), so `url` is optional; `summary` starts as `None`; the
time-utility functions treat missing timestamps, so both are optional. -/
structure Program where
  name : String
  type : String
  img : Option String
  url : Option String
  summary : Option String
  start_time : Option Int
  end_time : Option Int
deriving Repr, DecidableEq

/-- Lines 114-125, `get_program_duration`: return `None` if either timestamp is
falsy, else `(end - start).seconds`, the `timedelta` seconds component, i.e.
the difference modulo 86400 (whole days are discarded by `.seconds`). -/
def get_program_duration (program : Program) : Option Int :=
  match program.start_time, program.end_time with
  | some program_start, some program_end => some ((program_end - program_start) % 86400)
  | _, _ => none

/-- Lines 102-111, `get_current_program_progress`: compute the duration; if it
is falsy (`None` or `0`) return `None`; else return
`(now - start_time).seconds * 100 / duration` (true division, modelled exactly
over `Rat`; Python uses floats, exact at these magnitudes). -/
def get_current_program_progress (now : Int) (program : Program) : Option Rat :=
  match get_program_duration program with
  | none => none
  | some program_duration =>
    if program_duration = 0 then none
    else
      match program.start_time with
      | none => none
      | some s => some ((((now - s) % 86400 : Int) : Rat) * 100 / (program_duration : Rat))

/-- Lines 128-144, `get_remaining_time`: return `None` if either timestamp is
falsy; return `0` if `now > end_time` (strict); otherwise return
`(now - start_time).seconds` — note the source returns time elapsed since the
start, not time left until the end. -/
def get_remaining_time (now : Int) (program : Program) : Option Int :=
  match program.start_time, program.end_time with
  | some program_start, some program_end =>
    if now > program_end then some 0
    else some ((now - program_start) % 86400)
  | _, _ => none

/-- The two pieces of a program's detail page that
`extract_program_summary` (lines 147-164) reads from the parsed document:
the text of the first `<p class="synopsis-text">` (already `.strip()`ped)
and the text of the first `<h1>` (already `.strip()`ped), each `none` when
no such node exists. -/
structure DetailPage where
  synopsis : Option String
  h1 : Option String
deriving Repr, DecidableEq

/-- Lines 147-164, `extract_program_summary`: try to return the synopsis text;
if the synopsis node is missing, the `except` handler formats a log message
from the page's `<h1>` — when that node is also missing the handler itself
raises `AttributeError`, which propagates (`.error ()`); otherwise control
falls through to `return "No summary"`. -/
def extract_program_summary (page : DetailPage) : Except Unit String :=
  match page.synopsis with
  | some s => .ok s
  | none =>
    match page.h1 with
    | some _ => .ok "No summary"
    | none => .error ()

/-- Lines 167-177, `async_set_summary`: fetch the program's detail page with
`session.get(program.get('url'))` — when `url` is `None`, `aiohttp` raises on
the null URL (`.error ()`); there is no `try` anywhere in this function, so a
failed fetch or a raising extraction propagates. On success the record's
`summary` field is assigned and the record returned. The network is the
`fetch` oracle, returning the parsed detail page or a transport error. -/
def async_set_summary (fetch : String → Except Unit DetailPage) (program : Program) :
    Except Unit Program :=
  match program.url with
  | none => .error ()
  | some u =>
    match fetch u with
    | .error e => .error e
    | .ok page =>
      match extract_program_summary page with
      | .error e => .error e
      | .ok summary => .ok { program with summary := some summary }

/-- Line 238's `await asyncio.gather(*tasks)` with the default
`return_exceptions=False`: if every task resolves, the list of results in task
order; if any task raises, that exception propagates out of the `await`. -/
def gather {α β : Type} (f : α → Except Unit β) : List α → Except Unit (List β)
  | [] => .ok []
  | a :: rest =>
    match f a with
    | .error e => .error e
    | .ok b =>
      match gather f rest with
      | .error e => .error e
      | .ok bs => .ok (b :: bs)

/-- Lines 236-243 of `async_get_program_guide`: the summary-enrichment fan-out
over the `programs` list built by the card-extraction loop, followed by the
cache commit. `tasks = [async_set_summary(prog) for prog in programs]`;
`programs = await asyncio.gather(*tasks)`; then `if programs:` commit
`{'last_updated': now, 'data': programs}` under `_CACHE['guide'][chan]` and in
all cases return `programs`. A raising `gather` aborts the function before the
commit, leaving the cache as it was. Returns (guide cache after the call,
what the caller sees: the enriched list or the propagated exception). -/
def guide_enrich_and_commit (fetch : String → Except Unit DetailPage)
    (programs : List Program) (cache : Cache (List Program)) (chan : String) (now : Int) :
    Cache (List Program) × Except Unit (List Program) :=
  match gather (async_set_summary fetch) programs with
  | .error e => (cache, .error e)
  | .ok progs =>
    if progs.isEmpty then (cache, .ok progs)
    else (cache_put cache chan now progs, .ok progs)

/-- Line 12: the site base URL. -/
def BASE_URL : String := "http://www.programme-tv.net"

/-- What lines 66-74 read from an `<li>`'s first child: its tag name, its
`href` attribute and its `title` attribute (either attribute may be absent). -/
structure ChildNode where
  name : String
  href : Option String
  title : Option String
deriving Repr, DecidableEq

/-- One `<li>` node of the channel-index page: `findChild()` returns its first
child element or `None`. -/
structure LiItem where
  child : Option ChildNode
deriving Repr, DecidableEq

/-- The channel mapping built by lines 65-77: a Python dict from the anchor's
`title` attribute to the absolute URL, modelled as an association list with
dict-style insertion (replace in place, or append). -/
def ChanMap : Type := List (Option String × String)

instance : DecidableEq ChanMap := by
  unfold ChanMap
  infer_instance

/-- Python dict assignment `d[k] = v`: replace the value of an existing key in
place, otherwise append the new binding. -/
def dictInsert {K V : Type} [DecidableEq K] : List (K × V) → K → V → List (K × V)
  | [], k, v => [(k, v)]
  | (k2, v2) :: rest, k, v =>
    if k2 = k then (k, v) :: rest else (k2, v2) :: dictInsert rest k v

/-- The `for li_item in soup.find_all('li')` loop of lines 65-77: skip items
whose first child is missing or is not an `<a>`, skip anchors whose `href` is
falsy (absent or empty) or does not start with `'/programme/chaine'`
(`str.startswith`, modelled as a character-list prefix test), and for the
rest set `channels[child.get('title')] = BASE_URL + href`. The per-item
`try/except` only logs; no step of the model raises. -/
def parseChannels (lis : List LiItem) : ChanMap :=
  lis.foldl
    (fun channels li =>
      match li.child with
      | none => channels
      | some child =>
        if child.name ≠ "a" then channels
        else
          match child.href with
          | none => channels
          | some href =>
            if href = "" ∨ ¬ "/programme/chaine".toList.isPrefixOf href.toList then channels
            else dictInsert channels child.title (BASE_URL ++ href))
    []

/-- Lines 64-81 of `async_get_channels`, the refresh path after a cache miss:
build `channels` from the fetched page; `if channels:` store
`{'last_updated': now, 'data': channels}` under `_CACHE['channels']` and
return that entry; an empty dict skips the `if` and the function falls off the
end, returning `None` and leaving the cache slot as it was. Returns
(the `'channels'` cache slot after the call, the returned value). -/
def channelsRefresh (cache : Option (CacheEntry ChanMap)) (now : Int) (lis : List LiItem) :
    Option (CacheEntry ChanMap) × Option (CacheEntry ChanMap) :=
  let channels := parseChannels lis
  if channels.isEmpty then (cache, none)
  else (some ⟨now, channels⟩, some ⟨now, channels⟩)

/-- Lines 48-81, `async_get_channels`: with `not no_cache and 'channels' in
_CACHE`, return the cached entry when `now - last_updated <
timedelta(hours=refresh_interval)`, else `pop` the slot and refresh; with
`no_cache` set or no cached entry, refresh directly. The fetched-and-parsed
`<li>` list stands in for the network document. Returns
(the `'channels'` cache slot after the call, the returned value). -/
def async_get_channels (cache : Option (CacheEntry ChanMap)) (now : Int)
    (lis : List LiItem) (no_cache : Bool) (refresh_interval : Int) :
    Option (CacheEntry ChanMap) × Option (CacheEntry ChanMap) :=
  let max_cache_age := refresh_interval * 3600
  match no_cache, cache with
  | false, some c =>
    if now - c.last_updated < max_cache_age then (cache, some c)
    else channelsRefresh none now lis
  | _, _ => channelsRefresh cache now lis

/-- The `for prog in guide` loop of lines 256-260: return the first program
with `now > start_time and now < end_time` (both strict). Python evaluates
`now > prog.get('start_time')` first and short-circuits, so a `None`
`start_time` always raises `TypeError`, and a `None` `end_time` raises only
when `now > start_time` held. -/
def currentProgramLoop (now : Int) : List Program → Except Unit (Option Program)
  | [] => .ok none
  | prog :: rest =>
    match prog.start_time with
    | none => .error ()
    | some start =>
      if now > start then
        match prog.end_time with
        | none => .error ()
        | some e =>
          if now < e then .ok (some prog) else currentProgramLoop now rest
      else currentProgramLoop now rest

/-- Lines 246-260, `async_get_current_program`, after the guide has been
obtained (the guide stands in for the `async_get_program_guide` call): `if not
guide` return `None`, else scan the guide for the first program strictly
containing `now`. -/
def async_get_current_program (now : Int) (guide : List Program) :
    Except Unit (Option Program) :=
  if guide.isEmpty then .ok none
  else currentProgramLoop now guide

/-- The maximal digit prefix of a character list and the remainder
(the greedy `\d+` of the pattern; Python's `\d` on ASCII input is `0-9`). -/
def takeDigits : List Char → List Char × List Char
  | [] => ([], [])
  | c :: cs =>
    if c.isDigit then
      let p := takeDigits cs
      (c :: p.1, p.2)
    else ([], c :: cs)

/-- The numeric value of a digit string, as Python's `int()` of the matched
group (leading zeros are dropped by the conversion). -/
def digitsToNat (ds : List Char) : Nat :=
  ds.foldl (fun n c => 10 * n + (c.toNat - '0'.toNat)) 0

/-- Whether `(\d+)x(\d+)/.+` matches right after a `/`, and the two captured
values. Both digit runs are maximal (shrinking a run leaves a digit where `x`
or `/` is required, so backtracking inside a run can never succeed), and the
trailing `.+` needs at least one character after the second `/` that is not a
newline (`.` does not match newlines). -/
def tokenAfterSlash (cs : List Char) : Option (Nat × Nat) :=
  let p1 := takeDigits cs
  if p1.1 = [] then none
  else
    match p1.2 with
    | 'x' :: r2 =>
      let p2 := takeDigits r2
      if p2.1 = [] then none
      else
        match p2.2 with
        | '/' :: (c :: _) =>
          if c = '\n' then none else some (digitsToNat p1.1, digitsToNat p2.1)
        | _ => none
    | _ => none

/-- Scan for `re.match(r'.+/(\d+)x(\d+)/.+', s)`: the leading greedy `.+`
makes the engine try slash positions from the rightmost leftward, so the
match, if any, uses the last `/` (not at position 0, with a newline-free
prefix) that is followed by `digits x digits / non-newline`. The scan walks
left to right keeping the latest successful candidate; `atStart` is true only
at position 0 (where `.+` would be empty), and a newline ends the region the
leading `.+` can cover. -/
def findDimsAux : List Char → Bool → Option (Nat × Nat) → Option (Nat × Nat)
  | [], _, best => best
  | c :: cs, atStart, best =>
    if c = '\n' then best
    else
      let best2 :=
        if !atStart && c == '/' then
          match tokenAfterSlash cs with
          | some d => some d
          | none => best
        else best
      findDimsAux cs false best2

/-- Line 87's `re.match(r'.+/(\d+)x(\d+)/.+', img_url)`: the captured
`(WIDTH, HEIGHT)` pair, or `none` when the pattern does not match. -/
def findDims (cs : List Char) : Option (Nat × Nat) :=
  findDimsAux cs true none

/-- Python `re.sub(pat, repl, s)` for a pattern with no metacharacters (the
pattern here is `digits x digits`): replace every non-overlapping occurrence,
scanning left to right. Structured over a fuel argument so the kernel can
evaluate it; every step consumes at least one character of the remaining
input, so fuel equal to the input length is never exhausted. -/
def replaceAllFuel (pat repl : List Char) : Nat → List Char → List Char
  | 0, s => s
  | fuel + 1, s =>
    match s with
    | [] => []
    | c :: cs =>
      if pat ≠ [] ∧ pat.isPrefixOf (c :: cs) then
        repl ++ replaceAllFuel pat repl fuel ((c :: cs).drop pat.length)
      else
        c :: replaceAllFuel pat repl fuel cs

/-- `re.sub` over a whole character list: see `replaceAllFuel`. -/
def replaceAll (pat repl s : List Char) : List Char :=
  replaceAllFuel pat repl s.length s

/-- Lines 83-99, `resize_program_image`: if the `WIDTHxHEIGHT` pattern does
not match, log and return the URL unchanged; otherwise compute
`target_res_y = int(img_size * res_y / res_x)` (float division then
truncation — exact at these magnitudes, and the operands are non-negative, so
it is floor division) and substitute every occurrence of `'{res_x}x{res_y}'`
with `'{img_size}x{target_res_y}'`. A matched `res_x` of `0` makes the
division raise `ZeroDivisionError` (`.error ()`). -/
def resize_program_image (img_url : String) (img_size : Nat) : Except Unit String :=
  match findDims img_url.toList with
  | none => .ok img_url
  | some (res_x, res_y) =>
    if res_x = 0 then .error ()
    else
      let target_res_y := img_size * res_y / res_x
      .ok (String.mk (replaceAll
        (toString res_x ++ "x" ++ toString res_y).toList
        (toString img_size ++ "x" ++ toString target_res_y).toList
        img_url.toList))

/-- C2: for every cache key and value, a get immediately after a put (with a
positive max-age) returns the value; once the entry's age reaches or exceeds
`max_age`, the get returns absent and evicts the key on that read, and a get
at any later (or any other) time against the evicted cache still returns
absent until a new put — the cache never returns a logically-expired value. -/
theorem cache_freshness {V : Type} (c : Cache V) (k : String) (v : V)
    (now now2 now3 max_age : Int) (h0 : 0 < max_age) (h2 : max_age ≤ now2 - now) :
    (cache_get (cache_put c k now v) k now max_age).1 = some v ∧
    (cache_get (cache_put c k now v) k now2 max_age).1 = none ∧
    (cache_get ((cache_get (cache_put c k now v) k now2 max_age).2) k now3 max_age).1 = none := by
  have hput : cache_put c k now v k = some ⟨now, v⟩ := by simp [cache_put]
  refine ⟨?_, ?_, ?_⟩
  · simp [cache_get, hput, h0]
  · simp [cache_get, hput, show ¬ now2 - now < max_age by omega]
  · set c2 := (cache_get (cache_put c k now v) k now2 max_age).2 with hc2
    have hev : c2 k = none := by
      rw [hc2]
      simp [cache_get, hput, show ¬ now2 - now < max_age by omega]
    simp [cache_get, hev]

/-- Witness for `cache_freshness` at a concrete cache, key, value and clock. -/
theorem cache_freshness_witness :
    (cache_get (cache_put (fun _ => none : Cache Nat) "channels" 0 7) "channels" 0 5).1 = some 7 ∧
    (cache_get (cache_put (fun _ => none : Cache Nat) "channels" 0 7) "channels" 10 5).1 = none ∧
    (cache_get ((cache_get (cache_put (fun _ => none : Cache Nat) "channels" 0 7) "channels" 10 5).2)
      "channels" 20 5).1 = none :=
  cache_freshness (fun _ => none) "channels" 7 0 10 20 5 (by norm_num) (by norm_num)

/-- C3 (code bug): the docstring of `get_remaining_time` promises the
remaining time of a running program, but the code returns
`(now - start_time).seconds`, the time elapsed since the start. At
`now = 1000` a program running from `400` to `2200` (10 minutes in, 20 to go)
yields `600`, not the claimed ~`1200`; and at `now = end_time = 2200` the
strict `now > program_end` test fails, so the code returns `1800` instead of
the claimed `0`. -/
theorem remaining_time_bug :
    get_remaining_time 1000 ⟨"P", "t", none, none, none, some 400, some 2200⟩ = some 600 ∧
    (600 : Int) ≠ 1200 ∧
    get_remaining_time 2200 ⟨"P", "t", none, none, none, some 400, some 2200⟩ = some 1800 ∧
    (1800 : Int) ≠ 0 := by
  refine ⟨rfl, by norm_num, rfl, by norm_num⟩

/-- C9 (code bug): `get_program_duration` returns the `timedelta.seconds`
component, which discards whole days: a program spanning 25 hours
(`start_time = 0`, `end_time = 90000`) reports a duration of `3600` seconds,
not `90000`. The absent-timestamp half of the claim does hold: a missing
`start_time` yields absent. -/
theorem duration_bug :
    get_program_duration ⟨"P", "t", none, none, none, some 0, some 90000⟩ = some 3600 ∧
    (3600 : Int) ≠ 90000 ∧
    get_program_duration ⟨"P", "t", none, none, none, none, some 90000⟩ = none := by
  refine ⟨rfl, by norm_num, rfl⟩

/-- C10: a program whose `start_time` equals its `end_time` has a computed
duration of `0`, which is falsy in Python, so `get_current_program_progress`
returns early with absent and never executes the division; in general, the
division is reached only when `get_program_duration` produced a present,
non-zero divisor. -/
theorem progress_zero_duration_guard (now : Int) (p : Program) :
    (∀ t : Int, p.start_time = some t → p.end_time = some t →
        get_current_program_progress now p = none) ∧
    (get_current_program_progress now p ≠ none →
        ∃ d : Int, get_program_duration p = some d ∧ d ≠ 0) := by
  constructor
  · intro t h1 h2
    simp [get_current_program_progress, get_program_duration, h1, h2]
  · intro hne
    unfold get_current_program_progress at hne
    cases hd : get_program_duration p with
    | none => rw [hd] at hne; simp at hne
    | some d =>
      rw [hd] at hne
      by_cases hz : d = 0
      · subst hz; simp at hne
      · exact ⟨d, rfl, hz⟩

/-- Witness for `progress_zero_duration_guard`: a concrete zero-duration
program yields absent progress. -/
theorem progress_zero_duration_guard_witness :
    get_current_program_progress 10 ⟨"P", "t", none, none, none, some 5, some 5⟩ = none :=
  (progress_zero_duration_guard 10 ⟨"P", "t", none, none, none, some 5, some 5⟩).1 5 rfl rfl

/-- If any list member's task raises, `asyncio.gather` (with
`return_exceptions=False`) raises. -/
theorem gather_error {α β : Type} (f : α → Except Unit β) (l : List α)
    (h : ∃ a, a ∈ l ∧ f a = .error ()) : gather f l = .error () := by
  induction l with
  | nil =>
    obtain ⟨a, ha, _⟩ := h
    exact absurd ha (List.not_mem_nil a)
  | cons x xs ih =>
    obtain ⟨a, ha, he⟩ := h
    rcases List.mem_cons.mp ha with heq | hmem
    · subst heq
      simp [gather, he]
    · cases hfx : f x with
      | error e => cases e; simp [gather, hfx]
      | ok b => simp [gather, hfx, ih ⟨a, hmem, he⟩]

/-- A successful `gather` returns exactly one result per task, in order. -/
theorem gather_ok_length {α β : Type} (f : α → Except Unit β) :
    ∀ (l : List α) (bs : List β), gather f l = .ok bs → bs.length = l.length := by
  intro l
  induction l with
  | nil =>
    intro bs h
    simp [gather] at h
    subst h
    rfl
  | cons x xs ih =>
    intro bs h
    unfold gather at h
    cases hfx : f x with
    | error e => rw [hfx] at h; exact Except.noConfusion h
    | ok b =>
      rw [hfx] at h
      cases hg : gather f xs with
      | error e => rw [hg] at h; exact Except.noConfusion h
      | ok cs =>
        rw [hg] at h
        injection h with h2
        subst h2
        simp [ih cs hg]

/-- C1 (amended): `async_set_summary` contains no exception handling, and
line 238's `asyncio.gather` is called with the default
`return_exceptions=False`, so one program's failing detail-page fetch raises
out of the fan-out: `async_get_program_guide` then raises instead of
returning the N extracted records, and nothing is committed to the cache. -/
theorem guide_fanout_failure_propagates (fetch : String → Except Unit DetailPage)
    (programs : List Program) (cache : Cache (List Program)) (chan : String) (now : Int)
    (h : ∃ p, p ∈ programs ∧ async_set_summary fetch p = .error ()) :
    guide_enrich_and_commit fetch programs cache chan now = (cache, .error ()) := by
  unfold guide_enrich_and_commit
  rw [gather_error _ _ h]

/-- Witness for `guide_fanout_failure_propagates`: two extracted records, the
second one's fetch fails, and the whole fan-out stage raises. -/
theorem guide_fanout_failure_propagates_witness :
    guide_enrich_and_commit
      (fun u => if u = "good" then .ok ⟨some "S", some "T"⟩ else .error ())
      [⟨"P1", "t", none, some "good", none, some 0, some 3600⟩,
       ⟨"P2", "t", none, some "bad", none, some 3600, some 7200⟩]
      (fun _ => none) "ch" 0 = ((fun _ => none), .error ()) :=
  guide_fanout_failure_propagates _ _ _ _ _
    ⟨⟨"P2", "t", none, some "bad", none, some 3600, some 7200⟩, by simp, rfl⟩

/-- C1 counterexample: with the same two records and the second fetch
failing, the fan-out stage yields the propagated exception, not the list of
both records with the failing one's summary absent and the other enriched,
as the claim states. -/
theorem guide_fanout_cex :
    (guide_enrich_and_commit
      (fun u => if u = "good" then .ok ⟨some "S", some "T"⟩ else .error ())
      [⟨"P1", "t", none, some "good", none, some 0, some 3600⟩,
       ⟨"P2", "t", none, some "bad", none, some 3600, some 7200⟩]
      (fun _ => none) "ch" 0).2 = .error () ∧
    (Except.error () : Except Unit (List Program)) ≠
      .ok [⟨"P1", "t", none, some "good", some "S", some 0, some 3600⟩,
           ⟨"P2", "t", none, some "bad", none, some 3600, some 7200⟩] := by
  constructor
  · rfl
  · intro hcontra
    exact Except.noConfusion hcontra

/-- C5: the guide cache entry for a channel is written only when the `gather`
join over every extracted record has resolved successfully (one enriched
record per extracted record, in order) and the resulting list is non-empty;
in every other case (a raising fan-out member, or an empty list) the cache is
returned unchanged — a partially-enriched or empty sequence is never
committed. -/
theorem guide_cache_commit_only_complete (fetch : String → Except Unit DetailPage)
    (programs : List Program) (cache : Cache (List Program)) (chan : String) (now : Int) :
    (guide_enrich_and_commit fetch programs cache chan now).1 = cache ∨
    ∃ enriched : List Program,
      gather (async_set_summary fetch) programs = .ok enriched ∧
      enriched ≠ [] ∧ enriched.length = programs.length ∧
      guide_enrich_and_commit fetch programs cache chan now =
        (cache_put cache chan now enriched, .ok enriched) := by
  unfold guide_enrich_and_commit
  cases hg : gather (async_set_summary fetch) programs with
  | error e => left; rfl
  | ok progs =>
    by_cases hp : progs.isEmpty
    · left
      simp [hp]
    · right
      refine ⟨progs, rfl, ?_, gather_ok_length _ _ _ hg, ?_⟩
      · intro hnil
        subst hnil
        simp at hp
      · simp [hp]

/-- C4 (amended): the Summary Enricher does fill the summary field with a
substitute on an extraction failure — when the fetched page has no synopsis
container but has a title, `extract_program_summary` returns the placeholder
string `"No summary"` and `async_set_summary` stores it; when the page has
neither synopsis nor title, the logging in the `except` handler itself raises
and the exception propagates; and a record with no detail URL is not returned
unchanged — the fetch is attempted on the null URL and raises. -/
theorem summary_placeholder (fetch : String → Except Unit DetailPage) (p : Program) :
    (p.url = none → async_set_summary fetch p = .error ()) ∧
    (∀ u page, p.url = some u → fetch u = .ok page → page.synopsis = none →
        page.h1 ≠ none →
        async_set_summary fetch p = .ok { p with summary := some "No summary" }) ∧
    (∀ u page, p.url = some u → fetch u = .ok page → page.synopsis = none →
        page.h1 = none → async_set_summary fetch p = .error ()) := by
  refine ⟨?_, ?_, ?_⟩
  · intro h
    simp [async_set_summary, h]
  · intro u page hu hf hs hh
    cases hh1 : page.h1 with
    | none => exact absurd hh1 hh
    | some t => simp [async_set_summary, extract_program_summary, hu, hf, hs, hh1]
  · intro u page hu hf hs hh
    simp [async_set_summary, extract_program_summary, hu, hf, hs, hh]

/-- Witness for `summary_placeholder`: a concrete record whose detail page has
no synopsis but a title ends up carrying the placeholder summary. -/
theorem summary_placeholder_witness :
    async_set_summary (fun _ => .ok ⟨none, some "T"⟩)
        ⟨"P", "t", none, some "u", none, some 0, some 10⟩ =
      .ok ⟨"P", "t", none, some "u", some "No summary", some 0, some 10⟩ :=
  (summary_placeholder (fun _ => .ok ⟨none, some "T"⟩)
      ⟨"P", "t", none, some "u", none, some 0, some 10⟩).2.1 "u" ⟨none, some "T"⟩
    rfl rfl rfl (by simp)

/-- C4 counterexample: on a synopsis-extraction failure the summary field is
set to the present placeholder `"No summary"`, not left absent; and a record
with no detail URL makes `async_set_summary` raise instead of returning the
record unchanged. -/
theorem summary_placeholder_cex :
    async_set_summary (fun _ => .ok ⟨none, some "T"⟩)
        ⟨"Px", "t", none, some "u", none, some 0, some 10⟩ =
      .ok ⟨"Px", "t", none, some "u", some "No summary", some 0, some 10⟩ ∧
    (some "No summary" : Option String) ≠ none ∧
    async_set_summary (fun _ => .ok ⟨some "S", some "T"⟩)
        ⟨"Q", "t", none, none, none, some 0, some 10⟩ = .error () := by
  refine ⟨rfl, by simp, rfl⟩

/-- C6 (amended): an empty parsed channel mapping is not committed to the
cache (so the next call re-attempts the fetch), but the function returns
`None` — it falls off the end of the function body — rather than returning
the empty mapping itself; a non-empty mapping is committed and the committed
entry returned. Stated on the forced-refresh path (`no_cache = true`). -/
theorem channels_empty_not_cached (cache : Option (CacheEntry ChanMap)) (now : Int)
    (lis : List LiItem) (refresh_interval : Int) :
    (parseChannels lis = [] →
        async_get_channels cache now lis true refresh_interval = (cache, none)) ∧
    (parseChannels lis ≠ [] →
        async_get_channels cache now lis true refresh_interval =
          (some ⟨now, parseChannels lis⟩, some ⟨now, parseChannels lis⟩)) := by
  constructor
  · intro h
    simp [async_get_channels, channelsRefresh, h, List.isEmpty]
  · intro h
    have hne : (parseChannels lis).isEmpty = false := by
      cases hm : parseChannels lis with
      | nil => exact absurd hm h
      | cons a as => rfl
    simp [async_get_channels, channelsRefresh, hne]

/-- Witness for `channels_empty_not_cached`: the empty-directory side at an
empty node list, and the commit side at a single valid channel anchor. -/
theorem channels_empty_not_cached_witness :
    async_get_channels none 5 [] true 4 = (none, none) ∧
    async_get_channels none 5 [⟨some ⟨"a", some "/programme/chaine/tf1", some "TF1"⟩⟩] true 4 =
      (some ⟨5, [(some "TF1", "http://www.programme-tv.net/programme/chaine/tf1")]⟩,
       some ⟨5, [(some "TF1", "http://www.programme-tv.net/programme/chaine/tf1")]⟩) := by
  constructor
  · exact (channels_empty_not_cached none 5 [] 4).1 rfl
  · exact (channels_empty_not_cached none 5
      [⟨some ⟨"a", some "/programme/chaine/tf1", some "TF1"⟩⟩] 4).2 (by decide)

/-- C6 counterexample: a refresh that parses no valid entries returns `None`
(absent), not the present empty mapping the claim describes. -/
theorem channels_empty_cex :
    async_get_channels none 0 [] true 4 = (none, none) ∧
    (none : Option (CacheEntry ChanMap)) ≠ some ⟨0, []⟩ := by
  exact ⟨rfl, by simp⟩

/-- C7 (amended): the greedy `.+` in `re.match(r'.+/(\d+)x(\d+)/.+', ...)`
selects the last `/WIDTHxHEIGHT/` token of the URL, and the unrestricted
`re.sub` then replaces every occurrence of that token string (not only its
first occurrence) with `img_size x int(img_size * HEIGHT / WIDTH)`; a URL
with no such token is returned unchanged. On the spec's own single-token
example the result contains `150x100` as claimed. -/
theorem resize_image_amended (img_url : String) (img_size : Nat)
    (h : findDims img_url.toList = none) :
    resize_program_image img_url img_size = .ok img_url ∧
    resize_program_image "http://x/300x200/img.jpg" 150 = .ok "http://x/150x100/img.jpg" ∧
    resize_program_image "http://x/400x300/a/200x100/img.jpg" 150 =
      .ok "http://x/400x300/a/150x75/img.jpg" := by
  refine ⟨?_, rfl, rfl⟩
  have h2 : findDims img_url.data = none := h
  simp [resize_program_image, h2]

/-- Witness for `resize_image_amended`: a URL without any dimension token is
returned unchanged. -/
theorem resize_image_amended_witness :
    resize_program_image "http://x/img.jpg" 150 = .ok "http://x/img.jpg" :=
  (resize_image_amended "http://x/img.jpg" 150 (by decide)).1

/-- C7 counterexample: for a URL whose path carries two dimension tokens, the
code rewrites the second (last-matched) token, leaving the first occurrence
untouched — the claimed first-occurrence replacement (which would give
`150x112` from the `400x300` token) does not happen. -/
theorem resize_image_cex :
    resize_program_image "http://y/400x300/b/200x100/img.jpg" 150 =
      .ok "http://y/400x300/b/150x75/img.jpg" ∧
    (Except.ok "http://y/400x300/b/150x75/img.jpg" : Except Unit String) ≠
      .ok "http://y/150x112/b/200x100/img.jpg" := by
  constructor
  · rfl
  · intro hcontra
    injection hcontra with h2
    exact absurd h2 (by decide)

/-- Skipping one ended program: a member whose interval does not strictly
contain `now` falls through to the rest of the guide scan. -/
theorem currentProgramLoop_skip (now : Int) (p : Program) (rest : List Program)
    (s e : Int) (hs : p.start_time = some s) (he : p.end_time = some e)
    (hend : e ≤ now) :
    currentProgramLoop now (p :: rest) = currentProgramLoop now rest := by
  simp only [currentProgramLoop, hs, he]
  by_cases h : now > s
  · rw [if_pos h, if_neg (show ¬ now < e by omega)]
  · rw [if_neg h]

/-- Hitting a running program: a member with `start < now < end` (both
strict) is returned immediately. -/
theorem currentProgramLoop_hit (now : Int) (p : Program) (rest : List Program)
    (s e : Int) (hs : p.start_time = some s) (he : p.end_time = some e)
    (h1 : s < now) (h2 : now < e) :
    currentProgramLoop now (p :: rest) = .ok (some p) := by
  simp only [currentProgramLoop, hs, he]
  rw [if_pos h1, if_pos h2]

/-- C8 (amended): with a guide `[A, B, C]` where A has ended (`end <= now`)
and `now` lies strictly inside B's interval, the scan returns B; but the
comparison on the start side is strict (`now > start`), so B is selected only
for `start < now`, not on the claimed half-open `[start, end)` — at
`now = B.start` exactly, B is skipped (see the counterexample). -/
theorem current_program_strict (now sa ea sb eb : Int) (A B C : Program)
    (hA1 : A.start_time = some sa) (hA2 : A.end_time = some ea)
    (hB1 : B.start_time = some sb) (hB2 : B.end_time = some eb)
    (hAend : ea ≤ now) (hBs : sb < now) (hBe : now < eb) :
    async_get_current_program now [A, B, C] = .ok (some B) := by
  have step : async_get_current_program now [A, B, C] = currentProgramLoop now [A, B, C] := rfl
  rw [step, currentProgramLoop_skip now A [B, C] sa ea hA1 hA2 hAend,
    currentProgramLoop_hit now B [C] sb eb hB1 hB2 hBs hBe]

/-- Witness for `current_program_strict` on a concrete three-program guide
with `now` strictly inside B. -/
theorem current_program_strict_witness :
    async_get_current_program 150
      [⟨"A", "t", none, none, none, some 0, some 100⟩,
       ⟨"B", "t", none, none, none, some 100, some 200⟩,
       ⟨"C", "t", none, none, none, some 200, some 300⟩] =
      .ok (some ⟨"B", "t", none, none, none, some 100, some 200⟩) :=
  current_program_strict 150 0 100 100 200 _ _ _ rfl rfl rfl rfl
    (by norm_num) (by norm_num) (by norm_num)

/-- C8 counterexample: at `now` equal to B's `start_time` exactly (A ended, C
future), the strict `now > start` comparison skips B and the scan returns
absent, not B as the claim states. -/
theorem current_program_boundary_cex :
    async_get_current_program 100
      [⟨"A", "t", none, none, none, some 0, some 100⟩,
       ⟨"B", "t", none, none, none, some 100, some 200⟩,
       ⟨"C", "t", none, none, none, some 200, some 300⟩] = .ok none ∧
    (Except.ok none : Except Unit (Option Program)) ≠
      .ok (some ⟨"B", "t", none, none, none, some 100, some 200⟩) := by
  constructor
  · rfl
  · intro hcontra
    injection hcontra with h2
    exact Option.noConfusion h2

end Pyteleloisirs
